import Mathlib

/-!
Verification development for the audio-to-sign-video synthesis pipeline
(`signals.py`, `worker.py`, `app.py`, `main.py`).  The Python sources are
shallowly embedded: pure helpers become Lean functions, the external
collaborators (HTTP lookups, ffmpeg, moviepy) become oracle parameters, and
the filesystem side effects of the merge engine become explicit state
passing over a small filesystem record.  Durations (Python floats obtained
from integer millisecond arithmetic) are modelled as rationals.
-/

/-! ### Character/string helpers (Python `string.punctuation`, `str.strip`, `str.lower`) -/

/-- Membership in Python `string.punctuation`: ASCII ranges 33–47, 58–64, 91–96, 123–126. -/
def isPunct (c : Char) : Bool :=
  let n := c.toNat
  (33 ≤ n && n ≤ 47) || (58 ≤ n && n ≤ 64) || (91 ≤ n && n ≤ 96) || (123 ≤ n && n ≤ 126)

/-- Membership in Python `string.whitespace` (the characters removed by `str.strip`). -/
def isWs (c : Char) : Bool :=
  c = ' ' || c = '\t' || c = '\n' || c = '\r' || c = '\x0B' || c = '\x0C'

/-- Python `str.strip()` on a character list: drop leading and trailing whitespace. -/
def stripWsList (s : List Char) : List Char :=
  ((s.dropWhile isWs).reverse.dropWhile isWs).reverse

/-- Python `str.strip()`. -/
def stripStr (s : String) : String :=
  String.mk (stripWsList s.data)

/-- `_strip_punct` from `signals.py` (also `app.py`/`main.py`): remove punctuation,
lower-case, strip surrounding whitespace. -/
def stripPunct (t : String) : String :=
  String.mk (stripWsList ((t.data.filter (fun c => !(isPunct c))).map Char.toLower))

/-! ### Clip resolver (`signals.py`)

`fetch_signasl_urls` delegates the actual scraping (HTTP fast path, browser
fallback) to the external SignASL site; the scrape is abstracted as an
`oracle` from a normalized token to the list of media URLs found.  Both
scrapers normalize the token with `_strip_punct` first and return `[]` for an
empty normalized token, which is kept here. -/

/-- `fetch_signasl_urls` from `signals.py`, with the external scrape as `oracle`. -/
def fetch_signasl_urls (oracle : String → List String) (token : String) : List String :=
  let t := stripPunct token
  if t = "" then [] else oracle t

/-- The fingerspelling loop of `lookup_sign_urls_for_word` (`signals.py` lines 184–191):
for each letter look up clips, keep the first hit, stop once 6 are collected. -/
def letterLoop (fetch : String → List String) : List Char → List String → List String
  | [], out => out
  | c :: cs, out =>
    let out2 :=
      match fetch (String.mk [c]) with
      | [] => out
      | u :: _ => out ++ [u]
    if 6 ≤ out2.length then out2 else letterLoop fetch cs out2

/-- `lookup_sign_urls_for_word` from `signals.py`: up to 2 whole-word clips, else
fingerspell letter by letter (at most 6 letter clips). -/
def lookup_sign_urls_for_word (oracle : String → List String) (word : String) : List String :=
  match fetch_signasl_urls oracle word with
  | u :: us => (u :: us).take 2
  | [] => letterLoop (fetch_signasl_urls oracle) (stripPunct word).data []

/-! ### Plan builder (`worker.py` lines 291–322)

The worker's per-word loop: compute the word's allotted duration from the
AssemblyAI millisecond offsets, resolve the word to clip URLs, and append one
plan entry per URL.  The resolver handed to the worker is modelled as a total
function `lookup : String → List String` (the worker wraps the call in
`try/except` and substitutes `[]` on any exception, see `caughtLookup`). -/

/-- A transcript word from AssemblyAI: literal text plus start/end offsets in
milliseconds (the JSON field `end` is renamed `endMs`, a Lean keyword). -/
structure WordRec where
  text : String
  start : Int
  endMs : Int
deriving DecidableEq

/-- A plan entry as built by `process_audio_worker`: `(url, duration_s, token)`. -/
structure PlanEntry where
  url : String
  dur : ℚ
  tok : String
deriving DecidableEq

/-- `dur_s = max((end - start) / 1000.0, 0.12)` (`worker.py` line 299). -/
def wordDur (w : WordRec) : ℚ :=
  max (((w.endMs - w.start : Int) : ℚ) / 1000) (12 / 100)

/-- The body of the worker's per-word loop (`worker.py` lines 293–319): skip
whitespace-only words; one URL gets the full duration; several URLs split it
evenly, each entry floored at 0.08 s. -/
def entriesForWord (lookup : String → List String) (w : WordRec) : List PlanEntry :=
  let text := stripStr w.text
  if text = "" then []
  else
    match lookup text with
    | [] => []
    | [u] => [⟨u, wordDur w, text⟩]
    | u :: v :: us =>
      let urls := u :: v :: us
      let per := max (wordDur w / (urls.length : ℚ)) (8 / 100)
      urls.map (fun x => ⟨x, per, text⟩)

/-- The worker's plan-building loop: `plan.append(...)` per word, in word order. -/
def buildPlan (lookup : String → List String) (words : List WordRec) : List PlanEntry :=
  words.foldl (fun plan w => plan ++ entriesForWord lookup w) []

/-- Total planned duration of a list of plan entries. -/
def sumDur (plan : List PlanEntry) : ℚ :=
  (plan.map PlanEntry.dur).sum

/-- The worker's `try: urls = translate_text_to_sign(text) except: urls = []`
(`worker.py` lines 303–307): lookup exceptions are flattened to "no result". -/
def caughtLookup (lookupE : String → Except String (List String)) (t : String) : List String :=
  match lookupE t with
  | .ok us => us
  | .error _ => []

/-- Concrete resolver for the C3 counterexample: the word "abc" resolves to
three clips, everything else to none. -/
def lookupCex : String → List String :=
  fun t => if t = "abc" then ["u1", "u2", "u3"] else []

/-- The C3 counterexample word: a 120 ms span, so its allotted duration is
`max(0.12, 0.12) = 0.12 s`. -/
def wordCex : WordRec := ⟨"abc", 0, 120⟩

/-- Post-normalization scrape oracle realizing the spec's C5 example: "hello"
has one whole-word clip, every other token (including "zz9", "z" and "9") none. -/
def oracleHello : String → List String :=
  fun t => if t = "hello" then ["hello.mp4"] else []

/-- The spec's C5 example transcript words. -/
def wordsHello : List WordRec := [⟨"hello", 0, 500⟩, ⟨"zz9", 500, 900⟩]

/-- Concrete resolver for the C6 witness: "cat" resolves to three clips. -/
def lookupCat : String → List String :=
  fun t => if t = "cat" then ["a.mp4", "b.mp4", "c.mp4"] else []

/-- The C6 witness word: a 300 ms span, allotted duration 0.3 s, three clips. -/
def wordCat : WordRec := ⟨"cat", 0, 300⟩

/-! ### Lookup error handling (`app.py` `get_asl_video_url`, `signals.py` `_fetch_signasl_urls_http`)

The network requests are oracles returning `Except`: an `error` value stands
for the exception the Python `try` block would see. -/

/-- `get_asl_video_url` from `app.py` lines 43–56.  The `try` body (HTTP GET of
the JSON API, `raise_for_status`, JSON parse, list check) is the oracle `http`:
`ok items` is the parsed list of `video_url` fields (a non-list JSON body
behaves as `ok []`), `error` is any exception.  The `except` clause logs and
returns `None`. -/
def get_asl_video_url (http : String → Except String (List (Option String)))
    (token : String) : Option String :=
  let t := stripPunct token
  if t = "" then none
  else
    match http t with
    | .error _ => none
    | .ok [] => none
    | .ok (u :: _) => u

/-- The two site bases tried by `_fetch_signasl_urls_http` (`signals.py` line 24). -/
def signaslBases : List String :=
  ["https://www.signasl.org/", "https://signasl.org/"]

/-- Per-request outcomes for `_fetch_signasl_urls_http`: `api b t` is the JSON
API request against base `b` (`ok none` = non-2xx status or non-list body,
`ok (some items)` = parsed items' `video_url` fields, `error` = exception
caught by the per-base `try`); `page b t` is the HTML page request (`ok none`
= non-2xx status, `ok (some urls)` = the media URLs extracted by the two
regexes, already resolved against the base). -/
structure ScrapeEnv where
  api : String → String → Except String (Option (List (Option String)))
  page : String → String → Except String (Option (List String))

/-- URLs collected by the JSON-API pass (`signals.py` lines 59–71); falsy
(`None` or empty) `video_url` fields are skipped. -/
def apiFound (env : ScrapeEnv) (t : String) : List String :=
  signaslBases.flatMap fun b =>
    match env.api b t with
    | .error _ => []
    | .ok none => []
    | .ok (some items) => (items.filterMap id).filter (fun u => !(u = ""))

/-- URLs collected by the HTML pass (`signals.py` lines 80–94). -/
def pageFound (env : ScrapeEnv) (t : String) : List String :=
  signaslBases.flatMap fun b =>
    match env.page b t with
    | .error _ => []
    | .ok none => []
    | .ok (some us) => us

/-- First-occurrence de-duplication (`signals.py` lines 97–102). -/
def dedupAux : List String → List String → List String
  | [], _ => []
  | u :: us, seen => if u ∈ seen then dedupAux us seen else u :: dedupAux us (u :: seen)

/-- De-dupe preserving order of first occurrence. -/
def firstDedup (l : List String) : List String :=
  dedupAux l []

/-- `_fetch_signasl_urls_http` from `signals.py` lines 50–102: JSON API pass
over both bases, HTML pass over both bases, then order-preserving de-dupe. -/
def fetch_signasl_urls_http (env : ScrapeEnv) (token : String) : List String :=
  let t := stripPunct token
  if t = "" then []
  else firstDedup (apiFound env t ++ pageFound env t)

/-- Replace every request exception by the non-exceptional "no result" outcome. -/
def catchEnv (env : ScrapeEnv) : ScrapeEnv :=
  ⟨fun b t =>
     match env.api b t with
     | .error _ => .ok none
     | r => r,
   fun b t =>
     match env.page b t with
     | .error _ => .ok none
     | r => r⟩

/-- A scrape environment in which every single request raises. -/
def envAllErr : ScrapeEnv :=
  ⟨fun _ _ => .error "net", fun _ _ => .error "net"⟩

/-! ### Job records and the status query (`main.py` lines 285–295, `app.py` lines 107–120) -/

/-- A job record as stored in `video_jobs` / the on-disk job mirror: the
`status` string plus the optional payload fields that the worker writes. -/
structure JobRecord where
  status : String
  video_url : Option String := none
  transcript : Option String := none
  errorMsg : Option String := none
deriving DecidableEq

/-- Python `a or b` on an optional string: `None` and `""` fall back to `b`. -/
def orDefault (o : Option String) (d : String) : String :=
  match o with
  | none => d
  | some u => if u = "" then d else u

/-- The four responses of `/video_status/{job_id}`. -/
inductive StatusResp
  | processing
  | ready (video_url : String) (transcript : String)
  | error (detail : Option String)
  | notFound
deriving DecidableEq

/-- `video_status` from `main.py` lines 285–295: unknown id → `not_found`;
`ready` → url (with deterministic fallback path) and transcript; `error` →
detail; anything else → `processing`. -/
def video_status (jobs : String → Option JobRecord) (job_id : String) : StatusResp :=
  match jobs job_id with
  | none => .notFound
  | some job =>
    if job.status = "ready" then
      .ready (orDefault job.video_url ("/videos/output_" ++ job_id ++ ".mp4"))
        (job.transcript.getD "")
    else if job.status = "error" then .error job.errorMsg
    else .processing

/-! ### Media fetching and the concatenation engine (`worker.py` lines 144–267)

`_download_clip_to_mp4` and `generate_merged_video` are modelled with an
explicit filesystem state: a fresh-name counter, the set of temp files on
disk, and the (size of the) file at the merge output path.  The external
effects — the HTTP GET, the ffmpeg subprocess, `VideoFileClip`, and
`write_videofile` — are oracle outcomes. -/

/-- URL dispatch of `_download_clip_to_mp4` (`url.lower().endswith(...)`). -/
inductive UrlKind
  | m3u8
  | mp4
  | webm
  | other
deriving DecidableEq

/-- `suffix.data.isSuffixOf s.data`, i.e. Python `s.endswith(suffix)`. -/
def strEndsWith (s suffix : String) : Bool :=
  suffix.data.isSuffixOf s.data

/-- Classify a clip URL the way `_download_clip_to_mp4` does. -/
def urlKind (url : String) : UrlKind :=
  let low := String.mk (url.data.map Char.toLower)
  if strEndsWith low ".m3u8" then .m3u8
  else if strEndsWith low ".mp4" then .mp4
  else if strEndsWith low ".webm" then .webm
  else .other

/-- External outcomes for one clip: whether the direct HTTP GET is `ok`,
whether the ffmpeg subprocess exits 0, and whether `VideoFileClip` opens the
downloaded file. -/
structure FetchEnv where
  httpOk : Bool
  ffmpegOk : Bool
  clipOk : Bool
deriving DecidableEq

/-- Filesystem state: fresh temp-name counter, temp files currently on disk,
and the size of the file at the merge output path (`none` = absent). -/
structure FS where
  nextTmp : Nat
  tmpDisk : List Nat
  output : Option Nat
deriving DecidableEq

/-- `tempfile.NamedTemporaryFile(delete=False)`: creates the file on disk. -/
def mkTemp (fs : FS) : Nat × FS :=
  (fs.nextTmp, ⟨fs.nextTmp + 1, fs.tmpDisk ++ [fs.nextTmp], fs.output⟩)

/-- `os.remove` of a temp file (errors swallowed by the callers). -/
def rmTemp (fs : FS) (f : Nat) : FS :=
  ⟨fs.nextTmp, fs.tmpDisk.filter (fun g => !(g = f)), fs.output⟩

/-- `_download_clip_to_mp4` (`worker.py` lines 144–224): returns `some f` (the
local mp4 temp file) or `none` (the function raised).  Note the m3u8/webm/other
paths create the ffmpeg output temp file before running ffmpeg, so on an
ffmpeg failure that file stays on disk and its name never reaches the caller. -/
def download_clip (kind : UrlKind) (e : FetchEnv) (fs : FS) : Option Nat × FS :=
  match kind with
  | .m3u8 =>
    let r := mkTemp fs
    if e.ffmpegOk then (some r.1, r.2) else (none, r.2)
  | .mp4 =>
    if e.httpOk then
      let r := mkTemp fs
      (some r.1, r.2)
    else (none, fs)
  | .webm =>
    if e.httpOk then
      let rw := mkTemp fs
      let rf := mkTemp rw.2
      let fs3 := rmTemp rf.2 rw.1
      if e.ffmpegOk then (some rf.1, fs3) else (none, fs3)
    else (none, fs)
  | .other =>
    if e.httpOk then
      let r := mkTemp fs
      if e.ffmpegOk then (some r.1, r.2) else (none, r.2)
    else (none, fs)

/-- Whether `_download_clip_to_mp4` returns (rather than raises) for a clip. -/
def dlOk (kind : UrlKind) (e : FetchEnv) : Bool :=
  match kind with
  | .m3u8 => e.ffmpegOk
  | .mp4 => e.httpOk
  | .webm => e.httpOk && e.ffmpegOk
  | .other => e.httpOk && e.ffmpegOk

/-- Whether a plan entry survives into the merge: its download returns and
`VideoFileClip` opens it. -/
def survives (p : PlanEntry) (e : FetchEnv) : Bool :=
  dlOk (urlKind p.url) e && e.clipOk

/-- Outcome of `write_videofile`: it either returns (leaving a file of the
given size at the output path, `none` = nothing written) or raises (leaving
the output path in the given state). -/
inductive WriteRes
  | completed (out : Option Nat)
  | raised (out : Option Nat)
deriving DecidableEq

/-- External outcomes for one merge: per-entry fetch outcomes (zipped with the
plan) and the encoder outcome. -/
structure MergeEnv where
  fetches : List FetchEnv
  write : WriteRes

/-- The per-entry loop of `generate_merged_video` (`worker.py` lines 237–248):
download each clip (failures skipped), register the returned temp file in
`tmp_files` (`known`), and collect the timeline duration
`set_duration(max(dur, 0.08))` of each clip that opens. -/
def mergeLoop : List (PlanEntry × FetchEnv) → FS → List Nat → List ℚ → FS × List Nat × List ℚ
  | [], fs, known, durs => (fs, known, durs)
  | (p, e) :: rest, fs, known, durs =>
    match download_clip (urlKind p.url) e fs with
    | (some f, fs1) =>
      if e.clipOk then mergeLoop rest fs1 (known ++ [f]) (durs ++ [max p.dur (8/100)])
      else mergeLoop rest fs1 (known ++ [f]) durs
    | (none, fs1) => mergeLoop rest fs1 known durs

/-- The `finally` block: remove every registered temp file. -/
def cleanup (fs : FS) (known : List Nat) : FS :=
  known.foldl rmTemp fs

/-- `generate_merged_video` (`worker.py` lines 228–267): fetch all clips, raise
if none survived, run the encoder, raise if the output file is missing or
empty (without deleting it), and always clean the registered temp files.
Returns (result, final filesystem, timeline durations of the merged clips). -/
def generate_merged_video (plan : List PlanEntry) (env : MergeEnv) (fs : FS) :
    Except String Unit × FS × List ℚ :=
  let r := mergeLoop (plan.zip env.fetches) fs [] []
  let fs1 := r.1
  let known := r.2.1
  let durs := r.2.2
  if durs = [] then
    (Except.error "No ASL clips available to merge.", cleanup fs1 known, durs)
  else
    match env.write with
    | .raised wout =>
      (Except.error "write failed", cleanup ⟨fs1.nextTmp, fs1.tmpDisk, wout⟩ known, durs)
    | .completed wout =>
      match wout with
      | none =>
        (Except.error "Video file not written or empty.",
          cleanup ⟨fs1.nextTmp, fs1.tmpDisk, none⟩ known, durs)
      | some 0 =>
        (Except.error "Video file not written or empty.",
          cleanup ⟨fs1.nextTmp, fs1.tmpDisk, some 0⟩ known, durs)
      | some (n + 1) =>
        (Except.ok (), cleanup ⟨fs1.nextTmp, fs1.tmpDisk, some (n + 1)⟩ known, durs)

/-- An empty filesystem with a fresh (absent) output path. -/
def fs0 : FS := ⟨0, [], none⟩

/-- One directly fetchable mp4 clip. -/
def planMp4 : List PlanEntry := [⟨"a.mp4", 1/2, "w"⟩]

/-- All external steps succeed but the encoder writes a zero-byte output. -/
def envZeroWrite : MergeEnv := ⟨[⟨true, true, true⟩], .completed (some 0)⟩

/-- One HLS clip. -/
def planHls : List PlanEntry := [⟨"x.m3u8", 1/2, "w"⟩]

/-- The ffmpeg HLS fetch fails (e.g. a network error mid-stream). -/
def envHlsFail : MergeEnv := ⟨[⟨true, false, true⟩], .completed none⟩

/-! ### Worker orchestration (`worker.py` lines 271–343) -/

/-- The transcript JSON returned by AssemblyAI: its `text` and `words`. -/
structure Transcript where
  text : String
  words : List WordRec

/-- The pipeline stages the worker body enters, in execution order. -/
inductive Stage
  | transcription
  | planBuild
  | merge
deriving DecidableEq

/-- External outcomes of one worker run: the transcription collaborator
(`error` = any exception, including a reported AssemblyAI failure), the
per-word resolver before the worker's own per-word `try/except`, and the merge
engine (`error` = the exception raised by `generate_merged_video`). -/
structure WorkerEnv where
  transcribe : Except String Transcript
  lookupE : String → Except String (List String)
  mergeRun : Except String Unit

/-- The job-relative output URL `"/videos/output_<job_id>.mp4"`. -/
def outputUrl (job_id : String) : String :=
  "/videos/output_" ++ job_id ++ ".mp4"

/-- The record written at submission: `{"status": "processing", "transcript": ""}`. -/
def initialJob : JobRecord :=
  ⟨"processing", none, some "", none⟩

/-- `process_audio_worker` (`worker.py` lines 271–343) as a function of the
external outcomes: transcribe, build the plan, raise on an empty plan, merge,
and record `ready`/`error` in the job store (the single `except` turns every
stage failure into an error record).  Returns the final job record and the
list of stages entered, in execution order. -/
def process_audio_worker (job_id : String) (env : WorkerEnv) : JobRecord × List Stage :=
  match env.transcribe with
  | .error e => (⟨"error", none, none, some e⟩, [Stage.transcription])
  | .ok t =>
    let plan := buildPlan (caughtLookup env.lookupE) t.words
    if plan = [] then
      (⟨"error", none, none, some "No ASL clips available to merge."⟩,
        [Stage.transcription, Stage.planBuild])
    else
      match env.mergeRun with
      | .error e =>
        (⟨"error", none, none, some e⟩,
          [Stage.transcription, Stage.planBuild, Stage.merge])
      | .ok _ =>
        (⟨"ready", some (outputUrl job_id), some t.text, none⟩,
          [Stage.transcription, Stage.planBuild, Stage.merge])

/-- A fully successful worker run on the one-word transcript "hi". -/
def envC1 : WorkerEnv :=
  ⟨.ok ⟨"hi", [⟨"hi", 0, 500⟩]⟩,
   fun t => .ok (if t = "hi" then ["u.mp4"] else []),
   .ok ()⟩

/-- Unfolding the fingerspelling loop: as long as fewer than 6 clips are collected,
it computes the in-order first-hit of every letter, truncated to 6. -/
theorem letterLoop_spec (fetch : String → List String) :
    ∀ (cs : List Char) (out : List String), out.length < 6 →
    letterLoop fetch cs out
      = (out ++ cs.filterMap (fun c => (fetch (String.mk [c])).head?)).take 6 := by
  intro cs
  induction cs with
  | nil =>
    intro out h
    simp [letterLoop, List.take_of_length_le (Nat.le_of_lt h)]
  | cons c cs ih =>
    intro out h
    show letterLoop fetch (c :: cs) out = _
    unfold letterLoop
    cases hf : fetch (String.mk [c]) with
    | nil =>
      simp only [hf, List.filterMap_cons, List.head?_nil]
      have hnot : ¬ (6 ≤ out.length) := Nat.not_le.mpr h
      simp only [hnot, if_false]
      exact ih out h
    | cons u us =>
      simp only [hf, List.filterMap_cons, List.head?_cons]
      by_cases h6 : 6 ≤ (out ++ [u]).length
      · have hlen : (out ++ [u]).length = 6 := by
          simp only [List.length_append, List.length_singleton] at h6 ⊢
          omega
        simp only [h6, if_true]
        conv_rhs => rw [List.append_cons]
        rw [List.take_left' hlen]
      · simp only [h6, if_false]
        have hlt : (out ++ [u]).length < 6 := Nat.not_le.mp h6
        rw [ih (out ++ [u]) hlt]
        conv_rhs => rw [List.append_cons]

/-- Claim C4: the clip resolver returns at most 2 references when the whole-word
lookup succeeds (the first 2 found); when the whole-word lookup is empty it falls
back to fingerspelling, returning the first clip of each resolving letter in
letter order, capped at 6; a word for which both paths yield nothing resolves
to zero results. -/
theorem C4_resolver_caps (oracle : String → List String) (word : String) :
    (fetch_signasl_urls oracle word ≠ [] →
      lookup_sign_urls_for_word oracle word = (fetch_signasl_urls oracle word).take 2 ∧
      (lookup_sign_urls_for_word oracle word).length ≤ 2) ∧
    (fetch_signasl_urls oracle word = [] →
      lookup_sign_urls_for_word oracle word
        = ((stripPunct word).data.filterMap
            (fun c => (fetch_signasl_urls oracle (String.mk [c])).head?)).take 6 ∧
      (lookup_sign_urls_for_word oracle word).length ≤ 6) ∧
    (fetch_signasl_urls oracle word = [] →
      (∀ c, c ∈ (stripPunct word).data → fetch_signasl_urls oracle (String.mk [c]) = []) →
      lookup_sign_urls_for_word oracle word = []) := by
  refine ⟨?_, ?_, ?_⟩
  · intro hne
    cases hf : fetch_signasl_urls oracle word with
    | nil => exact absurd hf hne
    | cons u us =>
      constructor
      · simp [lookup_sign_urls_for_word, hf]
      · simp only [lookup_sign_urls_for_word, hf]
        exact List.length_take_le 2 (u :: us)
  · intro hf
    have hspec := letterLoop_spec (fetch_signasl_urls oracle) (stripPunct word).data []
      (by simp)
    constructor
    · simp only [lookup_sign_urls_for_word, hf]
      simpa using hspec
    · simp only [lookup_sign_urls_for_word, hf]
      rw [hspec]
      exact List.length_take_le 6 _
  · intro hf hall
    simp only [lookup_sign_urls_for_word, hf]
    rw [letterLoop_spec (fetch_signasl_urls oracle) (stripPunct word).data [] (by simp)]
    have : (stripPunct word).data.filterMap
        (fun c => (fetch_signasl_urls oracle (String.mk [c])).head?) = [] := by
      rw [List.filterMap_eq_nil_iff]
      intro c hc
      rw [hall c hc]
      rfl
    simp [this]

/-- Witness for C4 at a concrete input: an oracle that only knows the whole word
"hi" yields exactly its two first clips; an oracle that knows nothing yields
zero results even after fingerspelling. -/
theorem C4_resolver_caps_witness :
    lookup_sign_urls_for_word (fun t => if t = "hi" then ["u1", "u2", "u3"] else []) "hi"
      = ["u1", "u2"] ∧
    lookup_sign_urls_for_word (fun _ => []) "hi" = [] := by
  constructor
  · have h := (C4_resolver_caps (fun t => if t = "hi" then ["u1", "u2", "u3"] else []) "hi").1
      (by decide)
    rw [h.1]
    decide
  · exact (C4_resolver_caps (fun _ => []) "hi").2.2 (by decide) (fun c _ => by
      cases hc : fetch_signasl_urls (fun _ => []) (String.mk [c]) with
      | nil => rfl
      | cons u us =>
        exfalso
        simp only [fetch_signasl_urls] at hc
        split at hc
        · exact List.noConfusion hc
        · exact List.noConfusion hc)


/-- The worker's fold-with-append plan loop is the in-order concatenation of
the per-word entry blocks. -/
theorem buildPlan_eq_flat (lookup : String → List String) (words : List WordRec) :
    buildPlan lookup words = words.flatMap (entriesForWord lookup) := by
  suffices h : ∀ (ws : List WordRec) (acc : List PlanEntry),
      ws.foldl (fun plan w => plan ++ entriesForWord lookup w) acc
        = acc ++ ws.flatMap (entriesForWord lookup) by
    simpa [buildPlan] using h words []
  intro ws
  induction ws with
  | nil => intro acc; simp
  | cons w ws ih => intro acc; simp [ih, List.append_assoc]

/-- Summing a block of identical durations. -/
theorem sumDur_map_const (l : List String) (per : ℚ) (tk : String) :
    sumDur (l.map (fun x => PlanEntry.mk x per tk)) = l.length * per := by
  simp only [sumDur, List.map_map, Function.comp]
  induction l with
  | nil => simp
  | cons a l ih =>
    simp only [List.map_cons, List.sum_cons, List.length_cons, ih, Function.comp_apply]
    push_cast
    ring

/-- Unfolding the per-word loop body when the word resolves to k ≥ 2 clips. -/
theorem entriesForWord_multi (lookup : String → List String) (w : WordRec)
    (u v : String) (us : List String)
    (h1 : ¬ stripStr w.text = "") (h2 : lookup (stripStr w.text) = u :: v :: us) :
    entriesForWord lookup w
      = (u :: v :: us).map
          (fun x => PlanEntry.mk x
            (max (wordDur w / ((u :: v :: us).length : ℚ)) (8/100)) (stripStr w.text)) := by
  simp [entriesForWord, h1, h2]

/-- Unfolding the per-word loop body when the word resolves to exactly one clip. -/
theorem entriesForWord_single (lookup : String → List String) (w : WordRec) (u : String)
    (h1 : ¬ stripStr w.text = "") (h2 : lookup (stripStr w.text) = [u]) :
    entriesForWord lookup w = [⟨u, wordDur w, stripStr w.text⟩] := by
  simp [entriesForWord, h1, h2]

/-- Unfolding the per-word loop body when the word resolves to no clips. -/
theorem entriesForWord_empty (lookup : String → List String) (w : WordRec)
    (h2 : lookup (stripStr w.text) = []) :
    entriesForWord lookup w = [] := by
  by_cases h1 : stripStr w.text = "" <;> simp [entriesForWord, h1, h2]

/-- Claim C3 is false as stated: the per-entry 0.08 s floor can inflate the
block's total beyond the word's allotted duration.  The word "abc" spans
0–120 ms (allotted duration 0.12 s) and resolves to three clips, so each entry
gets `max(0.04, 0.08) = 0.08 s` and the block sums to 0.24 s ≠ 0.12 s. -/
theorem C3_sum_counterexample :
    (buildPlan lookupCex [wordCex]).length = 3 ∧
    sumDur (buildPlan lookupCex [wordCex]) ≠ wordDur wordCex := by
  have h1 : ¬ stripStr wordCex.text = "" := by decide
  have h2 : lookupCex (stripStr wordCex.text) = ["u1", "u2", "u3"] := by decide
  have hdur : wordDur wordCex = 3/25 := by
    norm_num [wordDur, wordCex, max_def]
  have hb : buildPlan lookupCex [wordCex] = entriesForWord lookupCex wordCex := by
    rw [buildPlan_eq_flat]
    simp
  rw [hb, entriesForWord_multi lookupCex wordCex "u1" "u2" ["u3"] h1 h2]
  constructor
  · simp
  · rw [sumDur_map_const, hdur]
    norm_num [max_def]

/-- Claim C3 (amended): plan entries are ordered identically to the
transcript's word order — the plan is the concatenation, in word order, of
per-word blocks — and a word resolving to N ≥ 1 clip references contributes
exactly N consecutive entries; the block's durations sum to at least the
word's allotted duration, and to exactly that duration whenever the even share
per reference is not below the 0.08 s per-entry floor. -/
theorem C3_plan_blocks (lookup : String → List String) (words : List WordRec) :
    buildPlan lookup words = words.flatMap (entriesForWord lookup) ∧
    ∀ w : WordRec, stripStr w.text ≠ "" → lookup (stripStr w.text) ≠ [] →
      (entriesForWord lookup w).length = (lookup (stripStr w.text)).length ∧
      wordDur w ≤ sumDur (entriesForWord lookup w) ∧
      ((8:ℚ)/100 ≤ wordDur w / ((lookup (stripStr w.text)).length : ℚ) →
        sumDur (entriesForWord lookup w) = wordDur w) := by
  refine ⟨buildPlan_eq_flat lookup words, ?_⟩
  intro w htext hurls
  cases hl : lookup (stripStr w.text) with
  | nil => exact absurd hl hurls
  | cons u rest =>
    cases rest with
    | nil =>
      refine ⟨?_, ?_, ?_⟩ <;>
        simp [entriesForWord_single lookup w u htext hl, hl, sumDur]
    | cons v us =>
      have hkpos : (0:ℚ) < ((u :: v :: us).length : ℚ) :=
        Nat.cast_pos.mpr (by simp)
      have hk : ((u :: v :: us).length : ℚ) ≠ 0 := hkpos.ne'
      have hcancel : ((u :: v :: us).length : ℚ)
          * (wordDur w / ((u :: v :: us).length : ℚ)) = wordDur w := by
        rw [mul_comm, div_mul_cancel₀ _ hk]
      have hblock := entriesForWord_multi lookup w u v us htext hl
      refine ⟨?_, ?_, ?_⟩
      · rw [hblock, List.length_map]
      · rw [hblock, sumDur_map_const]
        calc wordDur w
            = ((u :: v :: us).length : ℚ)
                * (wordDur w / ((u :: v :: us).length : ℚ)) := hcancel.symm
          _ ≤ ((u :: v :: us).length : ℚ)
                * max (wordDur w / ((u :: v :: us).length : ℚ)) (8/100) :=
              mul_le_mul_of_nonneg_left (le_max_left _ _) hkpos.le
      · intro hfloor
        rw [hblock, sumDur_map_const, max_eq_left hfloor, hcancel]

/-- Witness for the amended C3 at a concrete input: the word "cat" (span
0–300 ms) resolving to three clips contributes three consecutive entries whose
durations sum exactly to its allotted 0.3 s (0.1 s per entry, above the floor). -/
theorem C3_plan_blocks_witness :
    (entriesForWord lookupCat wordCat).length = 3 ∧
    sumDur (entriesForWord lookupCat wordCat) = wordDur wordCat := by
  have h := (C3_plan_blocks lookupCat [wordCat]).2 wordCat (by decide) (by decide)
  have hl : lookupCat (stripStr wordCat.text) = ["a.mp4", "b.mp4", "c.mp4"] := by decide
  have hfloor : (8:ℚ)/100 ≤ wordDur wordCat / ((lookupCat (stripStr wordCat.text)).length : ℚ) := by
    rw [hl]
    norm_num [wordDur, wordCat, max_def]
  refine ⟨?_, h.2.2 hfloor⟩
  rw [h.1, hl]
  decide

/-- Claim C5: the plan builder allots each word
`max((end - start) / 1000, 0.12)` seconds, and on the spec's example — "hello"
spanning 0–500 ms resolving to one clip, "zz9" spanning 500–900 ms resolving to
nothing even after fingerspelling its three characters — the plan is exactly
one entry for "hello" with duration 0.5 s. -/
theorem C5_duration_formula :
    (∀ w : WordRec, wordDur w = max (((w.endMs - w.start : Int) : ℚ) / 1000) (12/100)) ∧
    buildPlan (lookup_sign_urls_for_word oracleHello) wordsHello
      = [⟨"hello.mp4", 1/2, "hello"⟩] := by
  refine ⟨fun w => rfl, ?_⟩
  have e1 : entriesForWord (lookup_sign_urls_for_word oracleHello) ⟨"hello", 0, 500⟩
      = [⟨"hello.mp4", wordDur ⟨"hello", 0, 500⟩, stripStr "hello"⟩] :=
    entriesForWord_single _ _ "hello.mp4" (by decide) (by decide)
  have e2 : entriesForWord (lookup_sign_urls_for_word oracleHello) ⟨"zz9", 500, 900⟩ = [] :=
    entriesForWord_empty _ _ (by decide)
  have hdur : wordDur (⟨"hello", 0, 500⟩ : WordRec) = 1/2 := by
    norm_num [wordDur, max_def]
  have hstrip : stripStr "hello" = "hello" := by decide
  rw [buildPlan_eq_flat]
  show entriesForWord (lookup_sign_urls_for_word oracleHello) ⟨"hello", 0, 500⟩
      ++ (entriesForWord (lookup_sign_urls_for_word oracleHello) ⟨"zz9", 500, 900⟩ ++ []) = _
  rw [e1, e2, hdur, hstrip]
  rfl

/-- Claim C6: a word that resolves to k > 1 clip references is divided evenly,
each entry's duration being `max(dur/k, 0.08)`, hence at least 0.08 s, and the
block's total is at least the word's allotted duration. -/
theorem C6_even_division (lookup : String → List String) (w : WordRec)
    (u v : String) (us : List String)
    (h1 : ¬ stripStr w.text = "") (h2 : lookup (stripStr w.text) = u :: v :: us) :
    (entriesForWord lookup w).length = (u :: v :: us).length ∧
    (∀ e ∈ entriesForWord lookup w,
        e.dur = max (wordDur w / ((u :: v :: us).length : ℚ)) (8/100) ∧
        (8:ℚ)/100 ≤ e.dur) ∧
    wordDur w ≤ sumDur (entriesForWord lookup w) := by
  have hkpos : (0:ℚ) < ((u :: v :: us).length : ℚ) :=
    Nat.cast_pos.mpr (by simp)
  have hk : ((u :: v :: us).length : ℚ) ≠ 0 := hkpos.ne'
  have hcancel : ((u :: v :: us).length : ℚ)
      * (wordDur w / ((u :: v :: us).length : ℚ)) = wordDur w := by
    rw [mul_comm, div_mul_cancel₀ _ hk]
  have hblock := entriesForWord_multi lookup w u v us h1 h2
  refine ⟨?_, ?_, ?_⟩
  · rw [hblock, List.length_map]
  · intro e he
    rw [hblock] at he
    rcases List.mem_map.mp he with ⟨x, _, hx⟩
    refine ⟨?_, ?_⟩
    · rw [← hx]
    · rw [← hx]
      exact le_max_right _ _
  · rw [hblock, sumDur_map_const]
    calc wordDur w
        = ((u :: v :: us).length : ℚ)
            * (wordDur w / ((u :: v :: us).length : ℚ)) := hcancel.symm
      _ ≤ ((u :: v :: us).length : ℚ)
            * max (wordDur w / ((u :: v :: us).length : ℚ)) (8/100) :=
          mul_le_mul_of_nonneg_left (le_max_left _ _) hkpos.le

/-- Witness for C6 at the spec's numbers: "cat" spans 0–300 ms (duration
0.3 s) and resolves to 3 clips, giving 3 entries each of at least 0.08 s whose
total is at least 0.3 s. -/
theorem C6_even_division_witness :
    (entriesForWord lookupCat wordCat).length = 3 ∧
    wordDur wordCat ≤ sumDur (entriesForWord lookupCat wordCat) := by
  have h := C6_even_division lookupCat wordCat "a.mp4" "b.mp4" ["c.mp4"]
    (by decide) (by decide)
  exact ⟨h.1, h.2.2⟩

/-- Claim C9: network or parse errors during a clip lookup are caught inside
the resolver and treated as "no result" for that token: an erroring JSON-API
call in `get_asl_video_url` yields `None`; `_fetch_signasl_urls_http` behaves
identically whether a request raises or merely returns nothing; and if every
request raises the resolver returns the empty list — an ordinary value, never
a propagated exception. -/
theorem C9_lookup_errors_contained :
    (∀ (http : String → Except String (List (Option String))) (token e : String),
      http (stripPunct token) = .error e → get_asl_video_url http token = none) ∧
    (∀ (env : ScrapeEnv) (token : String),
      fetch_signasl_urls_http env token = fetch_signasl_urls_http (catchEnv env) token) ∧
    (∀ (env : ScrapeEnv) (token : String),
      (∀ b t, ∃ e, env.api b t = .error e) →
      (∀ b t, ∃ e, env.page b t = .error e) →
      fetch_signasl_urls_http env token = []) := by
  refine ⟨?_, ?_, ?_⟩
  · intro http token e he
    by_cases ht : stripPunct token = ""
    · simp [get_asl_video_url, ht]
    · simp [get_asl_video_url, ht, he]
  · intro env token
    have hapi : apiFound env (stripPunct token) = apiFound (catchEnv env) (stripPunct token) := by
      unfold apiFound
      congr 1
      funext b
      show _ = match (catchEnv env).api b (stripPunct token) with
        | .error _ => [] | .ok none => [] | .ok (some items) => _
      cases h : env.api b (stripPunct token) with
      | error e => simp [catchEnv, h]
      | ok o => cases o <;> simp [catchEnv, h]
    have hpage : pageFound env (stripPunct token) = pageFound (catchEnv env) (stripPunct token) := by
      unfold pageFound
      congr 1
      funext b
      show _ = match (catchEnv env).page b (stripPunct token) with
        | .error _ => [] | .ok none => [] | .ok (some us) => us
      cases h : env.page b (stripPunct token) with
      | error e => simp [catchEnv, h]
      | ok o => cases o <;> simp [catchEnv, h]
    simp only [fetch_signasl_urls_http, hapi, hpage]
  · intro env token hapi hpage
    by_cases ht : stripPunct token = ""
    · simp [fetch_signasl_urls_http, ht]
    · obtain ⟨e1, he1⟩ := hapi "https://www.signasl.org/" (stripPunct token)
      obtain ⟨e2, he2⟩ := hapi "https://signasl.org/" (stripPunct token)
      obtain ⟨e3, he3⟩ := hpage "https://www.signasl.org/" (stripPunct token)
      obtain ⟨e4, he4⟩ := hpage "https://signasl.org/" (stripPunct token)
      simp [fetch_signasl_urls_http, ht, apiFound, pageFound, signaslBases,
        he1, he2, he3, he4, firstDedup, dedupAux]

/-- Witness for C9 at concrete inputs: with every request raising, the word
lookup returns `None` and the scrape returns the empty list. -/
theorem C9_lookup_errors_contained_witness :
    get_asl_video_url (fun _ => Except.error "net") "hi" = none ∧
    fetch_signasl_urls_http envAllErr "hi" = [] := by
  refine ⟨?_, ?_⟩
  · exact C9_lookup_errors_contained.1 (fun _ => Except.error "net") "hi" "net" rfl
  · exact C9_lookup_errors_contained.2.2 envAllErr "hi"
      (fun b t => ⟨"net", rfl⟩) (fun b t => ⟨"net", rfl⟩)

/-- Claim C8: the status query is a pure total read returning one of the four
defined states: an unknown job id (and only an unknown id) yields `not_found`;
the response is a function of the stored record alone, so repeated queries on
an unchanged (in particular terminal) record return the identical response;
and every response is one of processing/ready/error/not_found. -/
theorem C8_status_total (jobs : String → Option JobRecord) (job_id : String) :
    (video_status jobs job_id = .notFound ↔ jobs job_id = none) ∧
    (∀ jobs2 : String → Option JobRecord, jobs2 job_id = jobs job_id →
      video_status jobs2 job_id = video_status jobs job_id) ∧
    (video_status jobs job_id = .processing ∨
      (∃ u t, video_status jobs job_id = .ready u t) ∨
      (∃ e, video_status jobs job_id = .error e) ∨
      video_status jobs job_id = .notFound) := by
  refine ⟨?_, ?_, ?_⟩
  · cases hj : jobs job_id with
    | none => simp [video_status, hj]
    | some job =>
      simp only [video_status, hj]
      constructor
      · intro h
        split at h
        · exact absurd h (by simp)
        · split at h
          · exact absurd h (by simp)
          · exact absurd h (by simp)
      · intro h
        exact absurd h (by simp)
  · intro jobs2 h2
    simp [video_status, h2]
  · cases hj : jobs job_id with
    | none => simp [video_status, hj]
    | some job =>
      simp only [video_status, hj]
      by_cases hr : job.status = "ready"
      · exact Or.inr (Or.inl
          ⟨orDefault job.video_url ("/videos/output_" ++ job_id ++ ".mp4"),
           job.transcript.getD "", by simp [hr]⟩)
      · by_cases he : job.status = "error"
        · exact Or.inr (Or.inr (Or.inl ⟨job.errorMsg, by simp [hr, he]⟩))
        · exact Or.inl (by simp [hr, he])

/-- Witness for C8 at a concrete input: querying an empty job store returns
`not_found`. -/
theorem C8_status_total_witness :
    video_status (fun _ => none) "job1" = StatusResp.notFound :=
  (C8_status_total (fun _ => none) "job1").1.mpr rfl

/-- `_download_clip_to_mp4` returns a file exactly when its external steps
succeed (`dlOk`). -/
theorem download_clip_isSome (k : UrlKind) (e : FetchEnv) (fs : FS) :
    (download_clip k e fs).1.isSome = dlOk k e := by
  cases k <;>
    cases h1 : e.httpOk <;> cases h2 : e.ffmpegOk <;>
      simp [download_clip, dlOk, mkTemp, rmTemp, h1, h2]

/-- `_download_clip_to_mp4` never touches the merge output path. -/
theorem download_clip_output (k : UrlKind) (e : FetchEnv) (fs : FS) :
    (download_clip k e fs).2.output = fs.output := by
  cases k <;>
    cases h1 : e.httpOk <;> cases h2 : e.ffmpegOk <;>
      simp [download_clip, mkTemp, rmTemp, h1, h2]

/-- The `finally` cleanup never touches the merge output path. -/
theorem cleanup_output (known : List Nat) : ∀ fs : FS, (cleanup fs known).output = fs.output := by
  induction known with
  | nil => intro fs; rfl
  | cons f rest ih =>
    intro fs
    show (cleanup (rmTemp fs f) rest).output = fs.output
    rw [ih (rmTemp fs f)]
    rfl

/-- The merge loop never touches the merge output path. -/
theorem mergeLoop_output :
    ∀ (l : List (PlanEntry × FetchEnv)) (fs : FS) (known : List Nat) (durs : List ℚ),
      (mergeLoop l fs known durs).1.output = fs.output := by
  intro l
  induction l with
  | nil => intro fs known durs; rfl
  | cons pe rest ih =>
    intro fs known durs
    obtain ⟨p, e⟩ := pe
    have hout := download_clip_output (urlKind p.url) e fs
    cases hd : download_clip (urlKind p.url) e fs with
    | mk o fs1 =>
      rw [hd] at hout
      have hout2 : fs1.output = fs.output := hout
      simp only [mergeLoop, hd]
      cases o with
      | some f => cases hc : e.clipOk <;> simp [hc, ih fs1, hout2]
      | none => simp [ih fs1, hout2]

/-- The timeline durations collected by the merge loop: one entry per
surviving clip, in plan order, each `max(planned, 0.08)`. -/
theorem mergeLoop_durs :
    ∀ (l : List (PlanEntry × FetchEnv)) (fs : FS) (known : List Nat) (durs : List ℚ),
      (mergeLoop l fs known durs).2.2
        = durs ++ l.filterMap
            (fun pe => if survives pe.1 pe.2 then some (max pe.1.dur (8/100)) else none) := by
  intro l
  induction l with
  | nil => intro fs known durs; simp [mergeLoop]
  | cons pe rest ih =>
    intro fs known durs
    obtain ⟨p, e⟩ := pe
    have hsome := download_clip_isSome (urlKind p.url) e fs
    cases hd : download_clip (urlKind p.url) e fs with
    | mk o fs1 =>
      rw [hd] at hsome
      simp only [mergeLoop, hd]
      cases o with
      | some f =>
        have hok : dlOk (urlKind p.url) e = true := by simpa using hsome.symm
        cases hc : e.clipOk with
        | true =>
          have hs : survives p e = true := by simp [survives, hok, hc]
          simp [hc, ih fs1, List.filterMap_cons, hs]
        | false =>
          have hs : survives p e = false := by simp [survives, hc]
          simp [hc, ih fs1, List.filterMap_cons, hs]
      | none =>
        have hok : dlOk (urlKind p.url) e = false := by simpa using hsome.symm
        have hs : survives p e = false := by simp [survives, hok]
        simp [ih fs1, List.filterMap_cons, hs]

/-- The durations returned by `generate_merged_video` are those collected by
its loop (every exit path returns them unchanged). -/
theorem generate_durs (plan : List PlanEntry) (env : MergeEnv) (fs : FS) :
    (generate_merged_video plan env fs).2.2
      = (mergeLoop (plan.zip env.fetches) fs [] []).2.2 := by
  simp only [generate_merged_video]
  split
  · rfl
  · cases env.write with
    | raised wout => rfl
    | completed wout =>
      cases wout with
      | none => rfl
      | some n =>
        cases n with
        | zero => rfl
        | succ m => rfl

/-- Claim C10: the concatenation engine plays each surviving plan entry for
`max(d, 0.08)` seconds — it imposes its own 0.08 s minimum per clip, so every
timeline duration is at least 0.08 s regardless of the planned value. -/
theorem C10_engine_floors_durations (plan : List PlanEntry) (env : MergeEnv) (fs : FS) :
    (generate_merged_video plan env fs).2.2
      = (plan.zip env.fetches).filterMap
          (fun pe => if survives pe.1 pe.2 then some (max pe.1.dur (8/100)) else none) ∧
    ∀ d ∈ (generate_merged_video plan env fs).2.2, (8:ℚ)/100 ≤ d := by
  have h1 : (generate_merged_video plan env fs).2.2
      = (plan.zip env.fetches).filterMap
          (fun pe => if survives pe.1 pe.2 then some (max pe.1.dur (8/100)) else none) := by
    rw [generate_durs, mergeLoop_durs]
    simp
  refine ⟨h1, ?_⟩
  intro d hd
  rw [h1] at hd
  rcases List.mem_filterMap.mp hd with ⟨pe, _, hpe⟩
  by_cases hs : survives pe.1 pe.2 = true
  · rw [if_pos hs] at hpe
    injection hpe with h
    rw [← h]
    exact le_max_right _ _
  · rw [if_neg hs] at hpe
    exact absurd hpe (by simp)

/-- Witness for C10 at a concrete input: one surviving mp4 clip planned at
0.5 s plays for `max(0.5, 0.08)` seconds, which is at least 0.08 s. -/
theorem C10_engine_floors_durations_witness :
    (generate_merged_video planMp4 envZeroWrite fs0).2.2 = [max ((1:ℚ)/2) (8/100)] ∧
    (8:ℚ)/100 ≤ max ((1:ℚ)/2) (8/100) := by
  have h := C10_engine_floors_durations planMp4 envZeroWrite fs0
  have hl : (generate_merged_video planMp4 envZeroWrite fs0).2.2
      = [max ((1:ℚ)/2) (8/100)] := by
    rw [h.1]
    rfl
  exact ⟨hl, h.2 _ (by rw [hl]; exact List.mem_singleton.mpr rfl)⟩

/-- Claim C2 is false as stated: when the encoder writes a zero-byte output
file, `generate_merged_video` detects it and raises — but it does not delete
the file, so an unrecoverable merge failure leaves a zero-byte artifact at the
output path. -/
theorem C2_zero_byte_counterexample :
    (generate_merged_video planMp4 envZeroWrite fs0).1
      = Except.error "Video file not written or empty." ∧
    (generate_merged_video planMp4 envZeroWrite fs0).2.1.output = some 0 := by
  constructor <;> rfl

/-- Claim C2 (amended): a plan whose clip fetches all fail makes the merge
raise a hard failure before any write, leaving the output path untouched (so
absent if it was absent); and the merge succeeds only with a non-empty output
file.  However, a failure detected after the encoder ran can leave a zero-byte
or partial artifact at the output path — the engine raises without deleting
it. -/
theorem C2_merge_failure_semantics (plan : List PlanEntry) (env : MergeEnv) (fs : FS) :
    ((∀ pe ∈ plan.zip env.fetches, survives pe.1 pe.2 = false) →
      (generate_merged_video plan env fs).1
        = Except.error "No ASL clips available to merge." ∧
      (generate_merged_video plan env fs).2.1.output = fs.output) ∧
    ((generate_merged_video plan env fs).1 = Except.ok () →
      ∃ n : Nat, (generate_merged_video plan env fs).2.1.output = some (n + 1)) := by
  constructor
  · intro hall
    have hdurs : (mergeLoop (plan.zip env.fetches) fs [] []).2.2 = [] := by
      rw [mergeLoop_durs]
      simp only [List.nil_append]
      rw [List.filterMap_eq_nil_iff]
      intro pe hpe
      rw [hall pe hpe]
      rfl
    constructor
    · simp [generate_merged_video, hdurs]
    · simp [generate_merged_video, hdurs, cleanup_output, mergeLoop_output]
  · intro hok
    by_cases hdurs : (mergeLoop (plan.zip env.fetches) fs [] []).2.2 = []
    · exfalso
      simp [generate_merged_video, hdurs] at hok
    · cases hw : env.write with
      | raised wout =>
        exfalso
        simp [generate_merged_video, hdurs, hw] at hok
      | completed wout =>
        cases wout with
        | none =>
          exfalso
          simp [generate_merged_video, hdurs, hw] at hok
        | some n =>
          cases n with
          | zero =>
            exfalso
            simp [generate_merged_video, hdurs, hw] at hok
          | succ m =>
            refine ⟨m, ?_⟩
            simp [generate_merged_video, hdurs, hw, cleanup_output]

/-- Witness for the amended C2 at a concrete input: a plan whose single HLS
fetch fails yields the hard "no clips" error and the (initially absent) output
path stays absent. -/
theorem C2_merge_failure_semantics_witness :
    (generate_merged_video planHls envHlsFail fs0).1
      = Except.error "No ASL clips available to merge." ∧
    (generate_merged_video planHls envHlsFail fs0).2.1.output = none := by
  have hall : ∀ pe ∈ planHls.zip envHlsFail.fetches, survives pe.1 pe.2 = false := by
    intro pe hpe
    have hpe2 : pe = (⟨"x.m3u8", 1/2, "w"⟩, ⟨true, false, true⟩) := by
      simpa [planHls, envHlsFail] using hpe
    rw [hpe2]
    rfl
  have h := (C2_merge_failure_semantics planHls envHlsFail fs0).1 hall
  refine ⟨h.1, ?_⟩
  rw [h.2]
  rfl

/-- Claim C7 fails on the code: `_download_clip_to_mp4` creates the ffmpeg
output temp file (`NamedTemporaryFile(delete=False)`) before running ffmpeg,
so when the HLS fetch fails the function raises with the file already on disk
and its name never reaches the caller's `tmp_files` list — the `finally`
cleanup cannot remove it.  Here the run errors yet temp file 0 is left on
disk. -/
theorem C7_temp_leak_on_failed_hls_fetch :
    (generate_merged_video planHls envHlsFail fs0).1
      = Except.error "No ASL clips available to merge." ∧
    (generate_merged_video planHls envHlsFail fs0).2.1.tmpDisk = [0] := by
  constructor <;> rfl

/-- The status query on a store holding a given record for the queried id. -/
theorem video_status_of_record (jobs : String → Option JobRecord) (id : String)
    (rec : JobRecord) (h : jobs id = some rec) :
    video_status jobs id
      = (if rec.status = "ready" then
          StatusResp.ready (orDefault rec.video_url ("/videos/output_" ++ id ++ ".mp4"))
            (rec.transcript.getD "")
        else if rec.status = "error" then StatusResp.error rec.errorMsg
        else StatusResp.processing) := by
  simp [video_status, h]

/-- The deterministic output URL is never the empty string. -/
theorem outputUrl_ne_empty (job_id : String) : ¬ outputUrl job_id = "" := by
  intro h
  have hlen : (outputUrl job_id).length = 0 := by
    rw [h]
    rfl
  rw [outputUrl, String.length_append, String.length_append] at hlen
  have h1 : ("/videos/output_" : String).length = 15 := rfl
  have h2 : (".mp4" : String).length = 4 := rfl
  omega

/-- Claim C1: a submitted job reads as `processing` until the worker finishes;
the worker enters the stages transcription → plan build → merge in that order,
stopping at the first failing stage; it always settles the job — the final
record is `ready` (with output location and transcript, no error detail) or
`error` (with a cause, no output location), never a permanent `processing`
state — and the status query on the settled record answers exactly `ready` or
`error`. -/
theorem C1_worker_settles_job (job_id : String) (env : WorkerEnv) :
    video_status (fun j => if j = job_id then some initialJob else none) job_id
      = StatusResp.processing ∧
    ((process_audio_worker job_id env).2 = [Stage.transcription] ∨
     (process_audio_worker job_id env).2 = [Stage.transcription, Stage.planBuild] ∨
     (process_audio_worker job_id env).2
       = [Stage.transcription, Stage.planBuild, Stage.merge]) ∧
    ((process_audio_worker job_id env).1.status = "ready" ∨
     (process_audio_worker job_id env).1.status = "error") ∧
    ((process_audio_worker job_id env).1.status = "ready" →
      (process_audio_worker job_id env).1.video_url = some (outputUrl job_id) ∧
      (process_audio_worker job_id env).1.transcript.isSome = true ∧
      (process_audio_worker job_id env).1.errorMsg = none) ∧
    ((process_audio_worker job_id env).1.status = "error" →
      (process_audio_worker job_id env).1.errorMsg.isSome = true ∧
      (process_audio_worker job_id env).1.video_url = none) ∧
    ((∃ u t, video_status
        (fun j => if j = job_id then some (process_audio_worker job_id env).1 else none) job_id
        = StatusResp.ready u t) ∨
     (∃ e, video_status
        (fun j => if j = job_id then some (process_audio_worker job_id env).1 else none) job_id
        = StatusResp.error e)) := by
  have hinit : video_status (fun j => if j = job_id then some initialJob else none) job_id
      = StatusResp.processing := by
    rw [video_status_of_record _ _ initialJob (by simp),
      if_neg (by decide : ¬ (initialJob.status = "ready")),
      if_neg (by decide : ¬ (initialJob.status = "error"))]
  refine ⟨hinit, ?_⟩
  cases ht : env.transcribe with
  | error e =>
    have hpw : process_audio_worker job_id env
        = (⟨"error", none, none, some e⟩, [Stage.transcription]) := by
      simp [process_audio_worker, ht]
    rw [hpw]
    exact ⟨Or.inl rfl, Or.inr rfl,
      fun hcontra => absurd hcontra (by decide : ¬ (("error" : String) = "ready")),
      fun _ => ⟨rfl, rfl⟩,
      Or.inr ⟨some e, by
        rw [video_status_of_record _ _ (⟨"error", none, none, some e⟩ : JobRecord) (by simp),
          if_neg (by decide : ¬ (("error" : String) = "ready")),
          if_pos (rfl : ("error" : String) = "error")]⟩⟩
  | ok t =>
    by_cases hp : buildPlan (caughtLookup env.lookupE) t.words = []
    · have hpw : process_audio_worker job_id env
          = (⟨"error", none, none, some "No ASL clips available to merge."⟩,
             [Stage.transcription, Stage.planBuild]) := by
        simp [process_audio_worker, ht, hp]
      rw [hpw]
      exact ⟨Or.inr (Or.inl rfl), Or.inr rfl,
        fun hcontra => absurd hcontra (by decide : ¬ (("error" : String) = "ready")),
        fun _ => ⟨rfl, rfl⟩,
        Or.inr ⟨some "No ASL clips available to merge.", by
          rw [video_status_of_record _ _
              (⟨"error", none, none, some "No ASL clips available to merge."⟩ : JobRecord)
              (by simp),
            if_neg (by decide : ¬ (("error" : String) = "ready")),
            if_pos (rfl : ("error" : String) = "error")]⟩⟩
    · cases hm : env.mergeRun with
      | error e =>
        have hpw : process_audio_worker job_id env
            = (⟨"error", none, none, some e⟩,
               [Stage.transcription, Stage.planBuild, Stage.merge]) := by
          simp [process_audio_worker, ht, hp, hm]
        rw [hpw]
        exact ⟨Or.inr (Or.inr rfl), Or.inr rfl,
          fun hcontra => absurd hcontra (by decide : ¬ (("error" : String) = "ready")),
          fun _ => ⟨rfl, rfl⟩,
          Or.inr ⟨some e, by
            rw [video_status_of_record _ _ (⟨"error", none, none, some e⟩ : JobRecord) (by simp),
              if_neg (by decide : ¬ (("error" : String) = "ready")),
              if_pos (rfl : ("error" : String) = "error")]⟩⟩
      | ok u =>
        have hpw : process_audio_worker job_id env
            = (⟨"ready", some (outputUrl job_id), some t.text, none⟩,
               [Stage.transcription, Stage.planBuild, Stage.merge]) := by
          simp [process_audio_worker, ht, hp, hm]
        rw [hpw]
        refine ⟨Or.inr (Or.inr rfl), Or.inl rfl,
          fun _ => ⟨rfl, rfl, rfl⟩,
          fun hcontra => absurd hcontra (by decide : ¬ (("ready" : String) = "error")),
          Or.inl ⟨outputUrl job_id, t.text, ?_⟩⟩
        rw [video_status_of_record _ _
            (⟨"ready", some (outputUrl job_id), some t.text, none⟩ : JobRecord) (by simp),
          if_pos (rfl : ("ready" : String) = "ready")]
        simp [orDefault, outputUrl_ne_empty job_id]

/-- Witness for C1 at a concrete input: a fully successful run on the one-word
transcript "hi" settles the job as `ready` with the deterministic output URL. -/
theorem C1_worker_settles_job_witness :
    (process_audio_worker "j1" envC1).1.status = "ready" ∧
    (process_audio_worker "j1" envC1).1.video_url = some (outputUrl "j1") := by
  have h := C1_worker_settles_job "j1" envC1
  have hs : (process_audio_worker "j1" envC1).1.status = "ready" := rfl
  exact ⟨hs, (h.2.2.2.1 hs).1⟩
